import Mathlib

/-!
Verification of the segment-player popup (`src/entrypoints/popup/App.vue`).

The component's reactive refs become fields of `AppState`; each handler of the
script block becomes a state transformer.  A `none` result models a thrown
JavaScript exception; asynchronous collaborators (the speech engine and the
host's script-injection facility) are parameters of the transitions they feed.
-/

set_option maxHeartbeats 1000000

/-- One extracted content segment (`{ text, tag, isPriority }` pushed by the
injected extraction function). -/
structure Segment where
  text : String
  tag : String
  isPriority : Bool
deriving DecidableEq, Repr

/-- One request sent to the speech engine: the `SpeechSynthesisUtterance`
constructed in `speakCurrentSegment` (text, rate, pitch, and the explicitly
assigned voice name, `none` when the engine default is used). -/
structure Utterance where
  text : String
  rate : ℚ
  pitch : ℚ
  voice : Option String
deriving DecidableEq, Repr

/-- A voice descriptor from the platform's voice catalog
(`speechSynthesis.getVoices()`). -/
structure Voice where
  name : String
  lang : String
  isDefault : Bool
deriving DecidableEq, Repr

/-- The `localStorage` keys the component reads and writes.  JavaScript
`Number.prototype.toString` / `parseFloat` round-trip exactly, so the numeric
keys are modelled as storing the rational value itself. -/
structure Store where
  speechRateKey : Option ℚ := none
  speechPitchKey : Option ℚ := none
  speechVoiceKey : Option String := none
  pageContentKey : Option String := none
  pageTitleKey : Option String := none
  pageUrlKey : Option String := none
deriving DecidableEq, Repr

/-- The popup component's state: every `ref` of the script block, the
`speechSynthesis` handle (modelled as an availability flag plus the engine's
paused flag and whether an utterance is in flight), and a log of the
utterances handed to the engine, in order. -/
structure AppState where
  pageContent : String
  pageTitle : String
  isLoading : Bool
  error : String
  isReading : Bool
  currentSpeechIndex : ℤ
  contentSegments : List Segment
  speechRate : ℚ
  speechPitch : ℚ
  speechVoice : String
  availableVoices : List Voice
  speechSynthesisAvailable : Bool
  utterInFlight : Bool
  enginePaused : Bool
  spokenLog : List Utterance
  store : Store
deriving DecidableEq, Repr

/-- Voice resolution inside `speakCurrentSegment`: if `speechVoice` is a
non-empty name, look it up in `availableVoices`; on a miss the utterance keeps
the engine's default voice (`none`). -/
def resolveVoice (voiceName : String) (voices : List Voice) : Option String :=
  if voiceName ≠ "" then
    match voices.find? (fun v => v.name = voiceName) with
    | some v => some v.name
    | none => none
  else none

/-- Construction of the `SpeechSynthesisUtterance` from a segment and the
current settings. -/
def mkUtterance (rate pitch : ℚ) (voice : Option String) (seg : Segment) :
    Utterance :=
  { text := seg.text, rate := rate, pitch := pitch, voice := voice }

/-- Placeholder segment used to state what `contentSegments[i]` evaluates to;
`speakCurrentSegment` only reads it under a guard that puts `i` in bounds. -/
def emptySegment : Segment := { text := "", tag := "", isPriority := false }

/-- `speakCurrentSegment`: if not reading or the cursor is at or past the end,
set `isReading := false` and halt (the terminal condition).  Otherwise build an
utterance from `contentSegments[currentSpeechIndex]` and hand it to the engine.
A negative cursor would make the JavaScript throw (`segments[i]` is
`undefined`, then `.text` faults); that is the `none` result. -/
def speakCurrentSegment (s : AppState) : Option AppState :=
  if s.isReading = false ∨ (s.contentSegments.length : ℤ) ≤ s.currentSpeechIndex then
    some { s with isReading := false }
  else if 0 ≤ s.currentSpeechIndex then
    some { s with
      utterInFlight := true,
      spokenLog := s.spokenLog ++
        [mkUtterance s.speechRate s.speechPitch
          (resolveVoice s.speechVoice s.availableVoices)
          (s.contentSegments.getD s.currentSpeechIndex.toNat emptySegment)] }
  else none

/-- `stopReading`: when the engine handle is present, `cancel()` the in-flight
utterance and set `isReading := false`; with no engine handle the body is
skipped entirely. -/
def stopReading (s : AppState) : AppState :=
  if s.speechSynthesisAvailable then
    { s with utterInFlight := false, isReading := false }
  else s

/-- `startReading`: report an error when the segment list is empty or no
engine is available; otherwise stop any current speech, reset the cursor to 0
when it is at or past the end, set `isReading := true` and speak the current
segment. -/
def startReading (s : AppState) : Option AppState :=
  if s.contentSegments.length = 0 then
    some { s with error := "No content to read" }
  else if s.speechSynthesisAvailable = false then
    some { s with error := "Speech synthesis not available" }
  else
    let s1 := stopReading s
    let s2 := if (s1.contentSegments.length : ℤ) ≤ s1.currentSpeechIndex then
        { s1 with currentSpeechIndex := 0 }
      else s1
    speakCurrentSegment { s2 with isReading := true }

/-- `nextSegment`: no-op unless reading; otherwise stop, increment the cursor
and restart. -/
def nextSegment (s : AppState) : Option AppState :=
  if s.isReading = false then some s
  else
    let s1 := stopReading s
    startReading { s1 with currentSpeechIndex := s1.currentSpeechIndex + 1 }

/-- `prevSegment`: no-op unless reading; otherwise stop, decrement the cursor
clamped at 0 (`Math.max(0, i - 1)`) and restart. -/
def prevSegment (s : AppState) : Option AppState :=
  if s.isReading = false then some s
  else
    let s1 := stopReading s
    startReading { s1 with currentSpeechIndex := max 0 (s1.currentSpeechIndex - 1) }

/-- `togglePause`: no-op with no engine; otherwise toggle the engine's paused
flag (`speechSynthesis.pause()` / `resume()`). -/
def togglePause (s : AppState) : AppState :=
  if s.speechSynthesisAvailable = false then s
  else if s.enginePaused then { s with enginePaused := false }
  else { s with enginePaused := true }

/-- The `onend` handler of the utterance: increment the cursor, then
`speakCurrentSegment()`.  The finished utterance has left the engine queue, so
`utterInFlight` drops to `false` before the next one is (possibly) queued. -/
def onUtteranceEnd (s : AppState) : Option AppState :=
  speakCurrentSegment
    { s with currentSpeechIndex := s.currentSpeechIndex + 1, utterInFlight := false }

/-- The `onerror` handler of the utterance: surface a message and halt; the
failed utterance is no longer in flight.  The cursor is left untouched. -/
def onUtteranceError (s : AppState) : AppState :=
  { s with
    error := "Error during speech synthesis",
    isReading := false,
    utterInFlight := false }

/-- Outcome of one extraction request, covering every exit of
`getPageContent`'s `try` block: the missing-tab throw, a rejected script
injection or execution (with the platform's message), a missing result, the
extractor's own `{ error }` object, or success (`article.segments` may be
absent, hence `Option`). -/
inductive ExtractOutcome where
  | noActiveTab
  | injectError (msg : String)
  | execError (msg : String)
  | noResult
  | extractorError (msg : String)
  | success (title content url : String) (segments : Option (List Segment))
deriving DecidableEq, Repr

/-- Whether an extraction outcome is one of the failure exits. -/
def ExtractOutcome.isFailure : ExtractOutcome → Bool
  | .success _ _ _ _ => false
  | _ => true

/-- The error message `getPageContent`'s `catch` stores for each failure
outcome (`err.message`). -/
def extractErrorMsg : ExtractOutcome → String
  | .noActiveTab => "No active tab found"
  | .injectError m => m
  | .execError m => m
  | .noResult => "Failed to extract content"
  | .extractorError m => m
  | .success _ _ _ _ => ""

/-- The synchronous prefix of `getPageContent`, run before the first `await`:
set `isLoading`, clear the error slot, and clear the page content and segment
list. -/
def getPageContentStart (s : AppState) : AppState :=
  { s with isLoading := true, error := "", pageContent := "", contentSegments := [] }

/-- The rest of `getPageContent`: on success store title/content/segments and
write the three page keys to `localStorage`; on any failure the `catch` block
stores the message.  The `finally` block clears `isLoading` on every path. -/
def getPageContentFinish (s : AppState) : ExtractOutcome → AppState
  | .success t c u segs =>
      { s with
        pageTitle := t,
        pageContent := c,
        contentSegments := segs.getD [],
        store := { s.store with
          pageContentKey := some c, pageTitleKey := some t, pageUrlKey := some u },
        isLoading := false }
  | r => { s with error := extractErrorMsg r, isLoading := false }

/-- One whole `getPageContent` call, parameterised by the outcome the host
environment produces. -/
def getPageContent (s : AppState) (r : ExtractOutcome) : AppState :=
  getPageContentFinish (getPageContentStart s) r

/-- A user change of the rate slider together with its `watch` callback, which
writes the new value through to `localStorage` immediately. -/
def setSpeechRate (s : AppState) (v : ℚ) : AppState :=
  { s with speechRate := v, store := { s.store with speechRateKey := some v } }

/-- A user change of the pitch slider together with its `watch` callback. -/
def setSpeechPitch (s : AppState) (v : ℚ) : AppState :=
  { s with speechPitch := v, store := { s.store with speechPitchKey := some v } }

/-- A user change of the voice selector together with its `watch` callback. -/
def setSpeechVoice (s : AppState) (v : String) : AppState :=
  { s with speechVoice := v, store := { s.store with speechVoiceKey := some v } }

/-- The settings-loading part of `onMounted`: a stored rate or pitch is
adopted when present (`!== null`); a stored voice only when truthy, i.e.
non-empty. -/
def loadSettings (st : Store) (s : AppState) : AppState :=
  let s1 := match st.speechRateKey with
    | some v => { s with speechRate := v }
    | none => s
  let s2 := match st.speechPitchKey with
    | some v => { s1 with speechPitch := v }
    | none => s1
  match st.speechVoiceKey with
  | some v => if v ≠ "" then { s2 with speechVoice := v } else s2
  | none => s2

/-- The player-facing operations: the five control buttons plus the two
engine callbacks. -/
inductive PlayerOp where
  | start
  | stop
  | next
  | prev
  | pauseToggle
  | utterEnd
  | utterError
deriving DecidableEq, Repr

/-- One player operation applied to a state.  The engine can only signal
`onend`/`onerror` for an utterance that is actually in flight; a `none` result
models a thrown exception. -/
def stepPlayer (s : AppState) : PlayerOp → Option AppState
  | .start => startReading s
  | .stop => some (stopReading s)
  | .next => nextSegment s
  | .prev => prevSegment s
  | .pauseToggle => some (togglePause s)
  | .utterEnd => if s.utterInFlight then onUtteranceEnd s else some s
  | .utterError => if s.utterInFlight then some (onUtteranceError s) else some s

/-- Run a sequence of player operations; a thrown exception (`none`)
propagates. -/
def runOps (s : AppState) : List PlayerOp → Option AppState
  | [] => some s
  | op :: ops => (stepPlayer s op).bind (fun s1 => runOps s1 ops)

/-- Iterate the `onend` callback `n` times: the engine completing `n`
utterances in a row. -/
def runEnds (s : AppState) : ℕ → Option AppState
  | 0 => some s
  | n + 1 => (onUtteranceEnd s).bind (fun s1 => runEnds s1 n)

/-! ## Basic lemmas about `stopReading` -/

@[simp] lemma stopReading_contentSegments (s : AppState) :
    (stopReading s).contentSegments = s.contentSegments := by
  unfold stopReading; split <;> rfl

@[simp] lemma stopReading_currentSpeechIndex (s : AppState) :
    (stopReading s).currentSpeechIndex = s.currentSpeechIndex := by
  unfold stopReading; split <;> rfl

@[simp] lemma stopReading_error (s : AppState) :
    (stopReading s).error = s.error := by
  unfold stopReading; split <;> rfl

@[simp] lemma stopReading_speechSynthesisAvailable (s : AppState) :
    (stopReading s).speechSynthesisAvailable = s.speechSynthesisAvailable := by
  unfold stopReading; split <;> rfl

@[simp] lemma stopReading_spokenLog (s : AppState) :
    (stopReading s).spokenLog = s.spokenLog := by
  unfold stopReading; split <;> rfl

@[simp] lemma stopReading_speechRate (s : AppState) :
    (stopReading s).speechRate = s.speechRate := by
  unfold stopReading; split <;> rfl

@[simp] lemma stopReading_speechPitch (s : AppState) :
    (stopReading s).speechPitch = s.speechPitch := by
  unfold stopReading; split <;> rfl

@[simp] lemma stopReading_speechVoice (s : AppState) :
    (stopReading s).speechVoice = s.speechVoice := by
  unfold stopReading; split <;> rfl

@[simp] lemma stopReading_availableVoices (s : AppState) :
    (stopReading s).availableVoices = s.availableVoices := by
  unfold stopReading; split <;> rfl

/-! ## Concrete example states -/

/-- The three-segment scenario of the specification. -/
def segIntro : Segment := { text := "Intro", tag := "p", isPriority := false }

/-- Second scenario segment, a heading. -/
def segHeading : Segment := { text := "Heading", tag := "h1", isPriority := true }

/-- Third scenario segment. -/
def segBody : Segment := { text := "Body", tag := "p", isPriority := false }

/-- A fresh popup state with an engine available and the scenario's three
segments extracted. -/
def exReady : AppState :=
  { pageContent := "old content", pageTitle := "Old Title", isLoading := false,
    error := "", isReading := false, currentSpeechIndex := 0,
    contentSegments := [segIntro, segHeading, segBody],
    speechRate := 1, speechPitch := 1, speechVoice := "", availableVoices := [],
    speechSynthesisAvailable := true, utterInFlight := false,
    enginePaused := false, spokenLog := [], store := {} }

/-- The player mid-run: speaking the second of the three segments. -/
def exPlayingMid : AppState :=
  { exReady with isReading := true, currentSpeechIndex := 1, utterInFlight := true }

/-- The player speaking the last segment of a two-segment list. -/
def exPlayingLast : AppState :=
  { exReady with
    contentSegments := [segIntro, segHeading],
    isReading := true, currentSpeechIndex := 1, utterInFlight := true }

/-! ## Branch equations for the player's operations -/

/-- Terminal branch of `speakCurrentSegment`. -/
lemma speakCurrentSegment_halts (s : AppState)
    (h : s.isReading = false ∨ (s.contentSegments.length : ℤ) ≤ s.currentSpeechIndex) :
    speakCurrentSegment s = some { s with isReading := false } := by
  unfold speakCurrentSegment
  rw [if_pos h]

/-- Speaking branch of `speakCurrentSegment`. -/
lemma speakCurrentSegment_speaks (s : AppState) (hr : s.isReading = true)
    (hlt : s.currentSpeechIndex < (s.contentSegments.length : ℤ))
    (h0 : 0 ≤ s.currentSpeechIndex) :
    speakCurrentSegment s = some { s with
      utterInFlight := true,
      spokenLog := s.spokenLog ++
        [mkUtterance s.speechRate s.speechPitch
          (resolveVoice s.speechVoice s.availableVoices)
          (s.contentSegments.getD s.currentSpeechIndex.toNat emptySegment)] } := by
  unfold speakCurrentSegment
  rw [if_neg (by rw [hr]; simp; omega), if_pos h0]

/-- When the precondition checks pass, `startReading` stops, possibly resets
the cursor, and speaks. -/
lemma startReading_run (s : AppState)
    (hne : ¬ s.contentSegments.length = 0) (heng : s.speechSynthesisAvailable = true) :
    startReading s = speakCurrentSegment
      { s with
        isReading := true,
        utterInFlight := false,
        currentSpeechIndex :=
          if (s.contentSegments.length : ℤ) ≤ s.currentSpeechIndex then 0
          else s.currentSpeechIndex } := by
  unfold startReading
  rw [if_neg hne, if_neg (by simp [heng])]
  simp only [stopReading, heng, if_true]
  split_ifs <;> rfl

/-- Full description of a successful `startReading` with a non-negative
cursor: the cursor is reset exactly when it is at or past the end, and the
segment now under the cursor is spoken. -/
lemma startReading_speaks (s : AppState)
    (hne : ¬ s.contentSegments.length = 0) (heng : s.speechSynthesisAvailable = true)
    (h0 : 0 ≤ s.currentSpeechIndex) :
    startReading s = some { s with
      isReading := true,
      utterInFlight := true,
      currentSpeechIndex :=
        if (s.contentSegments.length : ℤ) ≤ s.currentSpeechIndex then 0
        else s.currentSpeechIndex,
      spokenLog := s.spokenLog ++
        [mkUtterance s.speechRate s.speechPitch
          (resolveVoice s.speechVoice s.availableVoices)
          (s.contentSegments.getD
            (if (s.contentSegments.length : ℤ) ≤ s.currentSpeechIndex then 0
              else s.currentSpeechIndex).toNat emptySegment)] } := by
  rw [startReading_run s hne heng]
  by_cases hc : (s.contentSegments.length : ℤ) ≤ s.currentSpeechIndex
  · rw [speakCurrentSegment_speaks _ (by simp) (by simp [hc]; omega) (by simp [hc])]
  · rw [speakCurrentSegment_speaks _ (by simp) (by simp [hc]; omega) (by simp [hc, h0])]

/-- `nextSegment` while reading: stop, increment, restart. -/
lemma nextSegment_run (s : AppState) (hr : s.isReading = true) :
    nextSegment s = startReading
      { stopReading s with
        currentSpeechIndex := (stopReading s).currentSpeechIndex + 1 } := by
  unfold nextSegment
  rw [if_neg (by simp [hr])]

/-- `prevSegment` while reading: stop, decrement clamped at 0, restart. -/
lemma prevSegment_run (s : AppState) (hr : s.isReading = true) :
    prevSegment s = startReading
      { stopReading s with
        currentSpeechIndex := max 0 ((stopReading s).currentSpeechIndex - 1) } := by
  unfold prevSegment
  rw [if_neg (by simp [hr])]

/-- The two-segment scenario with an empty segment list. -/
def exEmpty : AppState := { exReady with contentSegments := [] }

/-- The ready state with no speech engine available. -/
def exNoEngine : AppState := { exReady with speechSynthesisAvailable := false }

/-! ## C7 — stop -/

/-- C7: in every state where the engine relationship holds (something is
playing or in flight only with an engine handle present), `stopReading` sets
`isReading := false` and cancels the in-flight utterance; it is idempotent,
and a no-op when nothing is playing or in flight. -/
theorem c7_stop_cancels_idempotent (s : AppState)
    (hinv : s.isReading = true ∨ s.utterInFlight = true →
      s.speechSynthesisAvailable = true) :
    (stopReading s).isReading = false ∧
    (stopReading s).utterInFlight = false ∧
    stopReading (stopReading s) = stopReading s ∧
    (s.isReading = false → s.utterInFlight = false → stopReading s = s) := by
  obtain ⟨pc, pt, il, er, ir, ci, cs, sr, sp, sv, av, eng, uf, ep, sl, st⟩ := s
  simp only [stopReading] at *
  by_cases h : eng <;> simp_all

/-- C7 witness: the C7 theorem applied to the concrete mid-playback state. -/
theorem c7_witness :
    (stopReading exPlayingMid).isReading = false ∧
    (stopReading exPlayingMid).utterInFlight = false ∧
    stopReading (stopReading exPlayingMid) = stopReading exPlayingMid ∧
    (exPlayingMid.isReading = false → exPlayingMid.utterInFlight = false →
      stopReading exPlayingMid = exPlayingMid) :=
  c7_stop_cancels_idempotent exPlayingMid (fun _ => rfl)

/-! ## C8 — startReading error paths -/

/-- C8: with an empty segment list `startReading` reports "No content to
read", leaves `isReading` (so a previously false value remains false), sends
no utterance and leaves the cursor alone; with no engine it reports
"Speech synthesis not available"; and with a non-negative cursor it never
throws. -/
theorem c8_start_error_paths (s : AppState) :
    (s.contentSegments = [] → ∃ s1, startReading s = some s1 ∧
        s1.error = "No content to read" ∧ s1.isReading = s.isReading ∧
        s1.spokenLog = s.spokenLog ∧ s1.utterInFlight = s.utterInFlight ∧
        s1.currentSpeechIndex = s.currentSpeechIndex) ∧
    (s.speechSynthesisAvailable = false → s.contentSegments ≠ [] →
      ∃ s1, startReading s = some s1 ∧
        s1.error = "Speech synthesis not available" ∧ s1.isReading = s.isReading ∧
        s1.spokenLog = s.spokenLog) ∧
    (0 ≤ s.currentSpeechIndex → (startReading s).isSome = true) := by
  refine ⟨?_, ?_, ?_⟩
  · intro h
    refine ⟨{ s with error := "No content to read" }, ?_, rfl, rfl, rfl, rfl, rfl⟩
    unfold startReading
    rw [if_pos (by simp [h])]
  · intro heng hne
    have hlen : ¬ s.contentSegments.length = 0 := by simpa using hne
    refine ⟨{ s with error := "Speech synthesis not available" }, ?_, rfl, rfl, rfl⟩
    unfold startReading
    rw [if_neg hlen, if_pos heng]
  · intro h0
    by_cases h1 : s.contentSegments.length = 0
    · unfold startReading
      rw [if_pos h1]
      rfl
    · by_cases h2 : s.speechSynthesisAvailable = false
      · unfold startReading
        rw [if_neg h1, if_pos h2]
        rfl
      · have heng : s.speechSynthesisAvailable = true := by simpa using h2
        rw [startReading_speaks s h1 heng h0]
        rfl

/-- C8 witness: the C8 theorem applied to the concrete empty-list state,
error-path conclusions discharged there. -/
theorem c8_witness :
    (∃ s1, startReading exEmpty = some s1 ∧
      s1.error = "No content to read" ∧ s1.isReading = exEmpty.isReading ∧
      s1.spokenLog = exEmpty.spokenLog ∧ s1.utterInFlight = exEmpty.utterInFlight ∧
      s1.currentSpeechIndex = exEmpty.currentSpeechIndex) ∧
    (∃ s1, startReading exNoEngine = some s1 ∧
      s1.error = "Speech synthesis not available" ∧
      s1.isReading = exNoEngine.isReading ∧ s1.spokenLog = exNoEngine.spokenLog) ∧
    (startReading exEmpty).isSome = true :=
  ⟨(c8_start_error_paths exEmpty).1 rfl,
   (c8_start_error_paths exNoEngine).2.1 rfl (by decide),
   (c8_start_error_paths exEmpty).2.2 (by decide)⟩

/-! ## C9 — settings persistence -/

/-- C9: every write to rate, pitch or voice is written through to the store
immediately, and a rate written is read back unchanged by the startup
settings load. -/
theorem c9_settings_write_through_roundtrip (s s0 : AppState) (v p : ℚ) (w : String) :
    (setSpeechRate s v).store.speechRateKey = some v ∧
    (setSpeechPitch s p).store.speechPitchKey = some p ∧
    (setSpeechVoice s w).store.speechVoiceKey = some w ∧
    (loadSettings (setSpeechRate s v).store s0).speechRate = v := by
  refine ⟨rfl, rfl, rfl, ?_⟩
  unfold loadSettings setSpeechRate
  cases hp : s.store.speechPitchKey <;> cases hv : s.store.speechVoiceKey <;>
    simp [hp, hv] <;> split <;> rfl

/-- A ready state carrying a stale error message from an earlier failure. -/
def exStaleError : AppState := { exReady with error := "stale" }

/-- A non-playing state whose cursor sits at 5. -/
def exIdleAt5 : AppState :=
  { exReady with isReading := false, currentSpeechIndex := 5 }

/-- Empty-list branch of `startReading`. -/
lemma startReading_noContent (s : AppState) (h : s.contentSegments.length = 0) :
    startReading s = some { s with error := "No content to read" } := by
  unfold startReading
  rw [if_pos h]

/-- No-engine branch of `startReading`. -/
lemma startReading_noEngine (s : AppState) (h1 : ¬ s.contentSegments.length = 0)
    (h2 : s.speechSynthesisAvailable = false) :
    startReading s = some { s with error := "Speech synthesis not available" } := by
  unfold startReading
  rw [if_neg h1, if_pos h2]

/-! ## C2 — next() on the last segment -/

/-- C2 counterexample: `nextSegment` while playing the last of two segments
does not halt playback.  It wraps the cursor to 0 inside the restart and
immediately speaks segment 0 ("Intro"), with `isReading` still true. -/
theorem c2_counterexample :
    (nextSegment exPlayingLast).map
      (fun t => (t.isReading, t.currentSpeechIndex, t.spokenLog.map Utterance.text)) =
      some (true, 0, ["Intro"]) := by decide

/-- C2 (amended): calling `nextSegment` while playing the last segment
advances the cursor past the end, and the restart inside `nextSegment` itself
resets it to 0 and keeps playing from segment 0 — the wrap-around is
automatic, not deferred to a later explicit `startReading`. -/
theorem c2_next_on_last_wraps (s : AppState)
    (hr : s.isReading = true) (heng : s.speechSynthesisAvailable = true)
    (hc : s.currentSpeechIndex = (s.contentSegments.length : ℤ) - 1)
    (hne : s.contentSegments ≠ []) :
    ∃ s1, nextSegment s = some s1 ∧ s1.isReading = true ∧
      s1.currentSpeechIndex = 0 ∧
      s1.spokenLog = s.spokenLog ++
        [mkUtterance s.speechRate s.speechPitch
          (resolveVoice s.speechVoice s.availableVoices)
          (s.contentSegments.getD 0 emptySegment)] := by
  have hlen : ¬ s.contentSegments.length = 0 := by simpa using hne
  rw [nextSegment_run s hr]
  rw [startReading_speaks _ (by simpa using hlen) (by simp [heng])
    (by simp [hc])]
  have hcond : ((s.contentSegments.length : ℤ) ≤ s.currentSpeechIndex + 1) := by
    rw [hc]; omega
  refine ⟨_, rfl, by simp, by simp [hcond], by simp [hcond]⟩

/-- C2 witness: the amended C2 theorem at the concrete two-segment state. -/
theorem c2_witness :
    ∃ s1, nextSegment exPlayingLast = some s1 ∧ s1.isReading = true ∧
      s1.currentSpeechIndex = 0 ∧
      s1.spokenLog = exPlayingLast.spokenLog ++
        [mkUtterance exPlayingLast.speechRate exPlayingLast.speechPitch
          (resolveVoice exPlayingLast.speechVoice exPlayingLast.availableVoices)
          (exPlayingLast.contentSegments.getD 0 emptySegment)] :=
  c2_next_on_last_wraps exPlayingLast rfl rfl (by decide) (by decide)

/-! ## C4 — utterance error, then start() -/

/-- C4 counterexample: after an utterance error at cursor 1 of three
segments, `startReading` resumes at the preserved cursor and speaks
"Heading" (segment 1), not segment 0. -/
theorem c4_counterexample :
    (startReading (onUtteranceError exPlayingMid)).map
      (fun t => (t.currentSpeechIndex, t.spokenLog.map Utterance.text)) =
      some (1, ["Heading"]) := by decide

/-- C4 (amended): an utterance error halts playback, surfaces
"Error during speech synthesis" and preserves the cursor; a subsequent
`startReading` resumes at the preserved cursor (restarting that segment from
its beginning) — it restarts from 0 only when the cursor is at or past the
end. -/
theorem c4_error_halts_start_resumes_at_cursor (s : AppState)
    (heng : s.speechSynthesisAvailable = true)
    (h0 : 0 ≤ s.currentSpeechIndex)
    (hlt : s.currentSpeechIndex < (s.contentSegments.length : ℤ)) :
    (onUtteranceError s).isReading = false ∧
    (onUtteranceError s).error = "Error during speech synthesis" ∧
    (onUtteranceError s).currentSpeechIndex = s.currentSpeechIndex ∧
    ∃ s1, startReading (onUtteranceError s) = some s1 ∧
      s1.isReading = true ∧
      s1.currentSpeechIndex = s.currentSpeechIndex ∧
      s1.spokenLog = s.spokenLog ++
        [mkUtterance s.speechRate s.speechPitch
          (resolveVoice s.speechVoice s.availableVoices)
          (s.contentSegments.getD s.currentSpeechIndex.toNat emptySegment)] := by
  refine ⟨rfl, rfl, rfl, ?_⟩
  have hlenpos : ¬ s.contentSegments.length = 0 := by omega
  rw [startReading_speaks _ (by simpa [onUtteranceError] using hlenpos)
    (by simp [onUtteranceError, heng]) (by simp [onUtteranceError, h0])]
  have hcond : ¬ ((s.contentSegments.length : ℤ) ≤ s.currentSpeechIndex) := by omega
  refine ⟨_, rfl, by simp, by simp [onUtteranceError, hcond], ?_⟩
  simp [onUtteranceError, hcond]

/-- C4 witness: the amended C4 theorem at the concrete mid-playback state. -/
theorem c4_witness :
    (onUtteranceError exPlayingMid).isReading = false ∧
    (onUtteranceError exPlayingMid).error = "Error during speech synthesis" ∧
    (onUtteranceError exPlayingMid).currentSpeechIndex = exPlayingMid.currentSpeechIndex ∧
    ∃ s1, startReading (onUtteranceError exPlayingMid) = some s1 ∧
      s1.isReading = true ∧
      s1.currentSpeechIndex = exPlayingMid.currentSpeechIndex ∧
      s1.spokenLog = exPlayingMid.spokenLog ++
        [mkUtterance exPlayingMid.speechRate exPlayingMid.speechPitch
          (resolveVoice exPlayingMid.speechVoice exPlayingMid.availableVoices)
          (exPlayingMid.contentSegments.getD exPlayingMid.currentSpeechIndex.toNat
            emptySegment)] :=
  c4_error_halts_start_resumes_at_cursor exPlayingMid rfl (by decide) (by decide)

/-! ## C3 — failed extraction -/

/-- C3 counterexample: a failed extraction does not leave the prior state
untouched — the page content and segment list are cleared (the title and the
error message behave as specified). -/
theorem c3_counterexample :
    (getPageContent exReady ExtractOutcome.noActiveTab).pageContent ≠ exReady.pageContent ∧
    (getPageContent exReady ExtractOutcome.noActiveTab).contentSegments ≠ exReady.contentSegments ∧
    (getPageContent exReady ExtractOutcome.noActiveTab).error = "No active tab found" := by
  decide

/-- C3 (amended): a failed extraction surfaces the failure's error message and
preserves the page title and the persisted store, but clears the page content
and the segment list (they are emptied at the start of the request and left
empty on failure); loading ends on every path. -/
theorem c3_failed_extraction_clears (s : AppState) (r : ExtractOutcome)
    (hf : r.isFailure = true) :
    (getPageContent s r).error = extractErrorMsg r ∧
    (getPageContent s r).pageTitle = s.pageTitle ∧
    (getPageContent s r).pageContent = "" ∧
    (getPageContent s r).contentSegments = [] ∧
    (getPageContent s r).isLoading = false ∧
    (getPageContent s r).store = s.store := by
  cases r <;>
    simp [ExtractOutcome.isFailure, getPageContent, getPageContentStart,
      getPageContentFinish, extractErrorMsg] at hf ⊢

/-- C3 witness: the amended C3 theorem at the concrete ready state and the
missing-tab failure. -/
theorem c3_witness :
    (getPageContent exReady ExtractOutcome.noActiveTab).error =
      extractErrorMsg ExtractOutcome.noActiveTab ∧
    (getPageContent exReady ExtractOutcome.noActiveTab).pageTitle = exReady.pageTitle ∧
    (getPageContent exReady ExtractOutcome.noActiveTab).pageContent = "" ∧
    (getPageContent exReady ExtractOutcome.noActiveTab).contentSegments = [] ∧
    (getPageContent exReady ExtractOutcome.noActiveTab).isLoading = false ∧
    (getPageContent exReady ExtractOutcome.noActiveTab).store = exReady.store :=
  c3_failed_extraction_clears exReady ExtractOutcome.noActiveTab rfl

/-! ## C5 — error-slot clearing -/

/-- C5 counterexample: `startReading` does not clear the error slot at its
start — a successful start of playback leaves a stale message in place. -/
theorem c5_counterexample :
    (startReading exStaleError).map AppState.error = some "stale" ∧
    "stale" ≠ "" := by decide

/-- C5 (amended): an extraction request clears the error slot at its start,
before any other work; the start of playback does not clear it — a successful
`startReading` leaves the error slot exactly as it was. -/
theorem c5_extract_clears_start_does_not (s : AppState) :
    (getPageContentStart s).error = "" ∧
    (s.contentSegments ≠ [] → s.speechSynthesisAvailable = true →
      0 ≤ s.currentSpeechIndex →
      ∃ s1, startReading s = some s1 ∧ s1.error = s.error) := by
  refine ⟨rfl, ?_⟩
  intro hne heng h0
  rw [startReading_speaks s (by simpa using hne) heng h0]
  exact ⟨_, rfl, by simp⟩

/-- C5 witness: the amended C5 theorem at the concrete stale-error state. -/
theorem c5_witness :
    (getPageContentStart exStaleError).error = "" ∧
    (∃ s1, startReading exStaleError = some s1 ∧ s1.error = exStaleError.error) :=
  ⟨(c5_extract_clears_start_does_not exStaleError).1,
   (c5_extract_clears_start_does_not exStaleError).2 (by decide) rfl (by decide)⟩

/-- `speakCurrentSegment` never changes the segment list, engine
availability or cursor, and only ever turns `isReading` off. -/
lemma speakCurrentSegment_fields (t s1 : AppState) (h : speakCurrentSegment t = some s1) :
    s1.contentSegments = t.contentSegments ∧
    s1.speechSynthesisAvailable = t.speechSynthesisAvailable ∧
    s1.currentSpeechIndex = t.currentSpeechIndex ∧
    (s1.isReading = true → t.isReading = true) := by
  unfold speakCurrentSegment at h
  split_ifs at h with h1 h2
  · obtain rfl := Option.some.inj h
    simp
  · obtain rfl := Option.some.inj h
    simp

/-- `startReading` never throws when the cursor is non-negative. -/
lemma startReading_isSome (s : AppState) (h0 : 0 ≤ s.currentSpeechIndex) :
    (startReading s).isSome = true := by
  by_cases h1 : s.contentSegments.length = 0
  · rw [startReading_noContent s h1]; rfl
  · by_cases h2 : s.speechSynthesisAvailable = false
    · rw [startReading_noEngine s h1 h2]; rfl
    · have heng : s.speechSynthesisAvailable = true := by simpa using h2
      rw [startReading_speaks s h1 heng h0]; rfl

/-- `startReading` keeps the cursor non-negative. -/
lemma startReading_cursor_nonneg (s t : AppState) (h0 : 0 ≤ s.currentSpeechIndex)
    (h : startReading s = some t) : 0 ≤ t.currentSpeechIndex := by
  by_cases h1 : s.contentSegments.length = 0
  · rw [startReading_noContent s h1] at h
    obtain rfl := Option.some.inj h
    simpa using h0
  · by_cases h2 : s.speechSynthesisAvailable = false
    · rw [startReading_noEngine s h1 h2] at h
      obtain rfl := Option.some.inj h
      simpa using h0
    · have heng : s.speechSynthesisAvailable = true := by simpa using h2
      rw [startReading_run s h1 heng] at h
      obtain ⟨-, -, hcur, -⟩ := speakCurrentSegment_fields _ _ h
      rw [hcur]
      simp only [AppState.currentSpeechIndex]
      split_ifs <;> omega

/-- `startReading` preserves the C10 invariant: afterwards, playing implies
a non-empty list and an engine. -/
lemma startReading_inv (s t : AppState)
    (hinv : s.isReading = true → s.contentSegments ≠ [] ∧ s.speechSynthesisAvailable = true)
    (h : startReading s = some t) :
    t.isReading = true → t.contentSegments ≠ [] ∧ t.speechSynthesisAvailable = true := by
  by_cases h1 : s.contentSegments.length = 0
  · rw [startReading_noContent s h1] at h
    obtain rfl := Option.some.inj h
    intro hrt
    simp at hrt
    simpa using hinv hrt
  · by_cases h2 : s.speechSynthesisAvailable = false
    · rw [startReading_noEngine s h1 h2] at h
      obtain rfl := Option.some.inj h
      intro hrt
      simp at hrt
      rcases hinv hrt with ⟨-, heng⟩
      rw [heng] at h2
      simp at h2
    · have heng : s.speechSynthesisAvailable = true := by simpa using h2
      rw [startReading_run s h1 heng] at h
      obtain ⟨hseg, hengf, -, -⟩ := speakCurrentSegment_fields _ _ h
      intro _
      constructor
      · rw [hseg]
        simpa using h1
      · rw [hengf]
        simpa using heng

/-- Every player operation preserves the C10 invariant. -/
lemma stepPlayer_inv (s t : AppState) (op : PlayerOp)
    (hinv : s.isReading = true → s.contentSegments ≠ [] ∧ s.speechSynthesisAvailable = true)
    (h : stepPlayer s op = some t) :
    t.isReading = true → t.contentSegments ≠ [] ∧ t.speechSynthesisAvailable = true := by
  cases op <;> simp only [stepPlayer] at h
  case start => exact startReading_inv s t hinv h
  case stop =>
    obtain rfl := Option.some.inj h
    unfold stopReading
    split_ifs with he
    · intro hrt
      simp at hrt
    · exact hinv
  case next =>
    unfold nextSegment at h
    split_ifs at h with hr
    · obtain rfl := Option.some.inj h
      exact hinv
    · have hr' : s.isReading = true := by simpa using hr
      rcases hinv hr' with ⟨-, heng⟩
      refine startReading_inv _ t ?_ h
      intro hT
      simp [stopReading, heng] at hT
  case prev =>
    unfold prevSegment at h
    split_ifs at h with hr
    · obtain rfl := Option.some.inj h
      exact hinv
    · have hr' : s.isReading = true := by simpa using hr
      rcases hinv hr' with ⟨-, heng⟩
      refine startReading_inv _ t ?_ h
      intro hT
      simp [stopReading, heng] at hT
  case pauseToggle =>
    obtain rfl := Option.some.inj h
    unfold togglePause
    split_ifs
    · exact hinv
    · intro hrt
      simp at hrt
      simpa using hinv hrt
    · intro hrt
      simp at hrt
      simpa using hinv hrt
  case utterEnd =>
    split_ifs at h with hf
    · unfold onUtteranceEnd at h
      obtain ⟨hseg, hengf, -, hir⟩ := speakCurrentSegment_fields _ _ h
      intro hrt
      have hsr := hir hrt
      simp at hsr
      rcases hinv hsr with ⟨hne, heng⟩
      rw [hseg, hengf]
      simpa using ⟨hne, heng⟩
    · obtain rfl := Option.some.inj h
      exact hinv
  case utterError =>
    split_ifs at h with hf
    · obtain rfl := Option.some.inj h
      intro hrt
      simp [onUtteranceError] at hrt
    · obtain rfl := Option.some.inj h
      exact hinv

/-- Every player operation keeps the cursor non-negative. -/
lemma stepPlayer_cursor_nonneg (s t : AppState) (op : PlayerOp)
    (h0 : 0 ≤ s.currentSpeechIndex) (h : stepPlayer s op = some t) :
    0 ≤ t.currentSpeechIndex := by
  cases op <;> simp only [stepPlayer] at h
  case start => exact startReading_cursor_nonneg s t h0 h
  case stop =>
    obtain rfl := Option.some.inj h
    unfold stopReading
    split_ifs <;> simpa using h0
  case next =>
    unfold nextSegment at h
    split_ifs at h with hr
    · obtain rfl := Option.some.inj h
      exact h0
    · refine startReading_cursor_nonneg _ t ?_ h
      simp
      omega
  case prev =>
    unfold prevSegment at h
    split_ifs at h with hr
    · obtain rfl := Option.some.inj h
      exact h0
    · refine startReading_cursor_nonneg _ t ?_ h
      simp
  case pauseToggle =>
    obtain rfl := Option.some.inj h
    unfold togglePause
    split_ifs <;> simpa using h0
  case utterEnd =>
    split_ifs at h with hf
    · unfold onUtteranceEnd at h
      obtain ⟨-, -, hcur, -⟩ := speakCurrentSegment_fields _ _ h
      rw [hcur]
      simp only [AppState.currentSpeechIndex]
      omega
    · obtain rfl := Option.some.inj h
      exact h0
  case utterError =>
    split_ifs at h with hf
    · obtain rfl := Option.some.inj h
      simpa [onUtteranceError] using h0
    · obtain rfl := Option.some.inj h
      exact h0

/-- The C10 invariant holds along any run of player operations. -/
lemma runOps_inv (ops : List PlayerOp) : ∀ s s1 : AppState,
    (s.isReading = true → s.contentSegments ≠ [] ∧ s.speechSynthesisAvailable = true) →
    runOps s ops = some s1 →
    (s1.isReading = true → s1.contentSegments ≠ [] ∧ s1.speechSynthesisAvailable = true) := by
  induction ops with
  | nil =>
    intro s s1 hinv h
    simp only [runOps] at h
    obtain rfl := Option.some.inj h
    exact hinv
  | cons op ops ih =>
    intro s s1 hinv h
    simp only [runOps] at h
    cases hst : stepPlayer s op with
    | none => rw [hst] at h; simp at h
    | some t =>
      rw [hst] at h
      simp only [Option.some_bind] at h
      exact ih t s1 (stepPlayer_inv s t op hinv hst) h

/-- The cursor stays non-negative along any run of player operations. -/
lemma runOps_cursor_nonneg (ops : List PlayerOp) : ∀ s s1 : AppState,
    0 ≤ s.currentSpeechIndex → runOps s ops = some s1 →
    0 ≤ s1.currentSpeechIndex := by
  induction ops with
  | nil =>
    intro s s1 h0 h
    simp only [runOps] at h
    obtain rfl := Option.some.inj h
    exact h0
  | cons op ops ih =>
    intro s s1 h0 h
    simp only [runOps] at h
    cases hst : stepPlayer s op with
    | none => rw [hst] at h; simp at h
    | some t =>
      rw [hst] at h
      simp only [Option.some_bind] at h
      exact ih t s1 (stepPlayer_cursor_nonneg s t op h0 hst) h

/-- The state reached from `exReady` by `startReading`: playing segment 0,
whose utterance has been handed to the engine. -/
def exAfterStart : AppState :=
  { exReady with
    isReading := true,
    utterInFlight := true,
    spokenLog := [mkUtterance 1 1 none segIntro] }

/-! ## C6 — the cursor never becomes negative -/

/-- C6 counterexample: `prevSegment` in a non-playing state with cursor 5 is
a no-op — it does not decrement the cursor to 4, so "previous() called in any
state decrements the cursor by 1 clamped at 0" fails. -/
theorem c6_counterexample :
    (prevSegment exIdleAt5).map AppState.currentSpeechIndex = some 5 := by decide

/-- C6 (amended): over every sequence of player operations from a state with
a non-negative cursor, the cursor never becomes negative; `prevSegment` is a
no-op when not playing, never throws, and while playing (with the cursor at
most the list length) moves the cursor to `max 0 (cursor - 1)`. -/
theorem c6_cursor_never_negative :
    (∀ (s s1 : AppState) (ops : List PlayerOp), 0 ≤ s.currentSpeechIndex →
      runOps s ops = some s1 → 0 ≤ s1.currentSpeechIndex) ∧
    (∀ s : AppState, s.isReading = false → prevSegment s = some s) ∧
    (∀ s : AppState, (prevSegment s).isSome = true) ∧
    (∀ s : AppState, s.isReading = true →
      s.currentSpeechIndex ≤ (s.contentSegments.length : ℤ) →
      ∃ s1, prevSegment s = some s1 ∧
        s1.currentSpeechIndex = max 0 (s.currentSpeechIndex - 1)) := by
  refine ⟨?_, ?_, ?_, ?_⟩
  · intro s s1 ops h0 h
    exact runOps_cursor_nonneg ops s s1 h0 h
  · intro s hr
    unfold prevSegment
    rw [if_pos hr]
  · intro s
    by_cases hr : s.isReading = false
    · unfold prevSegment
      rw [if_pos hr]
      rfl
    · have hr' : s.isReading = true := by simpa using hr
      rw [prevSegment_run s hr']
      refine startReading_isSome _ ?_
      simp
  · intro s hr hle
    rw [prevSegment_run s hr]
    by_cases h1 : s.contentSegments.length = 0
    · rw [startReading_noContent _ (by simpa using h1)]
      exact ⟨_, rfl, by simp⟩
    · by_cases h2 : s.speechSynthesisAvailable = false
      · rw [startReading_noEngine _ (by simpa using h1) (by simpa using h2)]
        exact ⟨_, rfl, by simp⟩
      · have heng : s.speechSynthesisAvailable = true := by simpa using h2
        rw [startReading_speaks _ (by simpa using h1) (by simpa using heng) (by simp)]
        have hcond : ¬ ((s.contentSegments.length : ℤ) ≤ max 0 (s.currentSpeechIndex - 1)) := by
          have hpos : 0 < s.contentSegments.length := Nat.pos_of_ne_zero h1
          omega
        exact ⟨_, rfl, by simp [hcond]⟩

/-- C6 witness: the amended C6 theorem at concrete states — a one-operation
run, the idle cursor-5 state, and the mid-playback state. -/
theorem c6_witness :
    0 ≤ exAfterStart.currentSpeechIndex ∧
    prevSegment exIdleAt5 = some exIdleAt5 ∧
    (prevSegment exPlayingMid).isSome = true ∧
    (∃ s1, prevSegment exPlayingMid = some s1 ∧
      s1.currentSpeechIndex = max 0 (exPlayingMid.currentSpeechIndex - 1)) :=
  ⟨c6_cursor_never_negative.1 exReady exAfterStart [PlayerOp.start] (by decide) (by decide),
   c6_cursor_never_negative.2.1 exIdleAt5 rfl,
   c6_cursor_never_negative.2.2.1 exPlayingMid,
   c6_cursor_never_negative.2.2.2 exPlayingMid rfl (by decide)⟩

/-! ## C10 — playing implies content and engine -/

/-- C10: in every state reachable by player operations from a non-playing
state, `isReading = true` implies the segment list is non-empty and the
engine handle is present — only `startReading`'s checked path turns
`isReading` on, and every other transition only turns it off. -/
theorem c10_playing_implies_ready (s : AppState) (ops : List PlayerOp) (s1 : AppState)
    (hidle : s.isReading = false)
    (hrun : runOps s ops = some s1)
    (hplay : s1.isReading = true) :
    s1.contentSegments ≠ [] ∧ s1.speechSynthesisAvailable = true :=
  runOps_inv ops s s1 (fun hr => absurd hr (by simp [hidle])) hrun hplay

/-- C10 witness: the C10 theorem on the concrete one-step run that starts
playback from the ready state. -/
theorem c10_witness :
    exAfterStart.contentSegments ≠ [] ∧ exAfterStart.speechSynthesisAvailable = true :=
  c10_playing_implies_ready exReady [PlayerOp.start] exAfterStart rfl (by decide) rfl


/-- The `onend` callback when the incremented cursor has reached the end (or
playback was already off): the terminal condition fires. -/
lemma onUtteranceEnd_halts (s : AppState)
    (h : s.isReading = false ∨ (s.contentSegments.length : ℤ) ≤ s.currentSpeechIndex + 1) :
    onUtteranceEnd s = some { s with
      currentSpeechIndex := s.currentSpeechIndex + 1,
      utterInFlight := false,
      isReading := false } := by
  unfold onUtteranceEnd
  rw [speakCurrentSegment_halts _ (by simpa using h)]

/-- The `onend` callback mid-list: the next segment is spoken. -/
lemma onUtteranceEnd_speaks (s : AppState) (hr : s.isReading = true)
    (hlt : s.currentSpeechIndex + 1 < (s.contentSegments.length : ℤ))
    (h0 : 0 ≤ s.currentSpeechIndex + 1) :
    onUtteranceEnd s = some { s with
      currentSpeechIndex := s.currentSpeechIndex + 1,
      utterInFlight := true,
      spokenLog := s.spokenLog ++
        [mkUtterance s.speechRate s.speechPitch
          (resolveVoice s.speechVoice s.availableVoices)
          (s.contentSegments.getD (s.currentSpeechIndex + 1).toNat emptySegment)] } := by
  unfold onUtteranceEnd
  rw [speakCurrentSegment_speaks _ (by simpa using hr) (by simpa using hlt)
    (by simpa using h0)]

/-- Driving lemma for C1: from a playing state at cursor `c` with `j`
segments left, `k ≤ j` completions advance the cursor to `c + k`, stay
playing exactly while `k < j`, and append the next `k` utterances in list
order. -/
lemma runEnds_progress : ∀ (j : ℕ), 1 ≤ j → ∀ (c : ℕ) (s : AppState),
    s.isReading = true →
    s.currentSpeechIndex = (c : ℤ) →
    c + j = s.contentSegments.length →
    ∀ k, k ≤ j → ∃ sk, runEnds s k = some sk ∧
      sk.currentSpeechIndex = ((c + k : ℕ) : ℤ) ∧
      sk.contentSegments = s.contentSegments ∧
      (sk.isReading = true ↔ k < j) ∧
      sk.spokenLog = s.spokenLog ++
        ((s.contentSegments.drop (c + 1)).take k).map
          (mkUtterance s.speechRate s.speechPitch
            (resolveVoice s.speechVoice s.availableVoices)) := by
  intro j
  induction j with
  | zero => omega
  | succ j ih =>
    intro _ c s hr hcur hlen k hk
    cases k with
    | zero =>
      refine ⟨s, rfl, ?_, rfl, ?_, ?_⟩
      · rw [hcur]; simp
      · simp [hr]
      · simp
    | succ k' =>
      by_cases hj : j = 0
      · subst hj
        have hk0 : k' = 0 := by omega
        subst hk0
        have hcn : (s.contentSegments.length : ℤ) ≤ s.currentSpeechIndex + 1 := by
          rw [hcur]; omega
        have hend := onUtteranceEnd_halts s (Or.inr hcn)
        refine ⟨{ s with
            currentSpeechIndex := s.currentSpeechIndex + 1,
            utterInFlight := false,
            isReading := false }, ?_, ?_, ?_, ?_, ?_⟩
        · simp only [runEnds]
          rw [hend]
          rfl
        · simp [hcur]
        · simp
        · simp
        · have hdrop : s.contentSegments.drop (c + 1) = [] := by
            apply List.drop_eq_nil_of_le
            omega
          simp [hdrop]
      · have hjj : 1 ≤ j := by omega
        have hlt : s.currentSpeechIndex + 1 < (s.contentSegments.length : ℤ) := by
          rw [hcur]; omega
        have hspeak := onUtteranceEnd_speaks s hr hlt (by rw [hcur]; omega)
        obtain ⟨sk, hrun, hcur2, hseg2, hiff2, hlog2⟩ :=
          ih hjj (c + 1)
            { s with
              currentSpeechIndex := s.currentSpeechIndex + 1,
              utterInFlight := true,
              spokenLog := s.spokenLog ++
                [mkUtterance s.speechRate s.speechPitch
                  (resolveVoice s.speechVoice s.availableVoices)
                  (s.contentSegments.getD (s.currentSpeechIndex + 1).toNat emptySegment)] }
            (by simpa using hr)
            (by simp [hcur])
            (by simp; omega)
            k' (by omega)
        have htoNat : (s.currentSpeechIndex + 1).toNat = c + 1 := by
          rw [hcur]; omega
        have hc1 : c + 1 < s.contentSegments.length := by omega
        have hgetD : s.contentSegments.getD (c + 1) emptySegment =
            s.contentSegments[c + 1] := List.getD_eq_getElem _ _ hc1
        refine ⟨sk, ?_, ?_, ?_, ?_, ?_⟩
        · simp only [runEnds]
          rw [hspeak]
          simpa using hrun
        · rw [hcur2]; omega
        · rw [hseg2]
        · rw [hiff2]; omega
        · rw [hlog2]
          simp only [List.drop_eq_getElem_cons hc1, List.take_succ_cons, List.map_cons,
            htoNat, hgetD]
          simp

/-- A non-empty list's `(k+1)`-prefix is its head followed by a `k`-prefix of
its tail. -/
lemma take_succ_eq_getD_cons {α : Type} (l : List α) (d : α) (k : ℕ) (h : l ≠ []) :
    l.take (k + 1) = l.getD 0 d :: (l.drop 1).take k := by
  cases l with
  | nil => exact absurd rfl h
  | cons a t => rfl

/-- Mapping over a non-empty list splits off its head. -/
lemma map_eq_getD_cons {α β : Type} (l : List α) (d : α) (f : α → β) (h : l ≠ []) :
    l.map f = f (l.getD 0 d) :: (l.drop 1).map f := by
  cases l with
  | nil => exact absurd rfl h
  | cons a t => rfl

/-! ## C1 — sequential playback termination -/

/-- C1: for every non-empty segment list (engine available, cursor at 0 or
past the end so that playback begins at segment 0), `startReading` followed by
one engine completion per utterance speaks the segments strictly in list
order — after `k` completions the player is still playing with cursor `k`
having spoken exactly the first `k+1` segments — and after as many completions
as there are segments it terminates with `isReading = false` and the cursor
equal to the list length, having spoken every segment once, in order. -/
theorem c1_sequential_playback (s : AppState)
    (hne : s.contentSegments ≠ [])
    (heng : s.speechSynthesisAvailable = true)
    (hc : s.currentSpeechIndex = 0 ∨ (s.contentSegments.length : ℤ) ≤ s.currentSpeechIndex) :
    ∃ s1, startReading s = some s1 ∧
      (∀ k, k < s.contentSegments.length → ∃ sk, runEnds s1 k = some sk ∧
        sk.isReading = true ∧ sk.currentSpeechIndex = (k : ℤ) ∧
        sk.spokenLog = s.spokenLog ++
          (s.contentSegments.take (k + 1)).map
            (mkUtterance s.speechRate s.speechPitch
              (resolveVoice s.speechVoice s.availableVoices))) ∧
      ∃ sf, runEnds s1 s.contentSegments.length = some sf ∧
        sf.isReading = false ∧
        sf.currentSpeechIndex = (s.contentSegments.length : ℤ) ∧
        sf.spokenLog = s.spokenLog ++
          s.contentSegments.map
            (mkUtterance s.speechRate s.speechPitch
              (resolveVoice s.speechVoice s.availableVoices)) := by
  have hlen : ¬ s.contentSegments.length = 0 := by simpa using hne
  have hpos : 0 < s.contentSegments.length := Nat.pos_of_ne_zero hlen
  have h0 : 0 ≤ s.currentSpeechIndex := by rcases hc with h | h <;> omega
  have hS : startReading s = some { s with
      isReading := true, utterInFlight := true, currentSpeechIndex := 0,
      spokenLog := s.spokenLog ++
        [mkUtterance s.speechRate s.speechPitch
          (resolveVoice s.speechVoice s.availableVoices)
          (s.contentSegments.getD 0 emptySegment)] } := by
    rw [startReading_speaks s hlen heng h0]
    rcases hc with h | h
    · rw [if_neg (by omega), h]
      rfl
    · rw [if_pos h]
      rfl
  have key := fun (k : ℕ) (hk : k ≤ s.contentSegments.length) =>
    runEnds_progress s.contentSegments.length hpos 0
      { s with
        isReading := true, utterInFlight := true, currentSpeechIndex := 0,
        spokenLog := s.spokenLog ++
          [mkUtterance s.speechRate s.speechPitch
            (resolveVoice s.speechVoice s.availableVoices)
            (s.contentSegments.getD 0 emptySegment)] }
      (by simp) (by simp) (by simp) k hk
  refine ⟨_, hS, ?_, ?_⟩
  · intro k hk
    obtain ⟨sk, hrun, hcur2, hseg2, hiff2, hlog2⟩ := key k (le_of_lt hk)
    refine ⟨sk, hrun, hiff2.mpr hk, ?_, ?_⟩
    · rw [hcur2]; simp
    · rw [hlog2, take_succ_eq_getD_cons s.contentSegments emptySegment k hne]
      simp
  · obtain ⟨sf, hrun, hcur2, hseg2, hiff2, hlog2⟩ := key s.contentSegments.length le_rfl
    refine ⟨sf, hrun, ?_, ?_, ?_⟩
    · cases hb : sf.isReading
      · rfl
      · exact absurd (hiff2.mp hb) (lt_irrefl _)
    · rw [hcur2]; simp
    · rw [hlog2]
      have htakeall : (s.contentSegments.drop 1).take s.contentSegments.length =
          s.contentSegments.drop 1 := List.take_of_length_le (by simp)
      rw [htakeall, map_eq_getD_cons s.contentSegments emptySegment _ hne]
      simp

/-- C1 witness: the C1 theorem at the concrete three-segment ready state. -/
theorem c1_witness :
    ∃ s1, startReading exReady = some s1 ∧
      (∀ k, k < exReady.contentSegments.length → ∃ sk, runEnds s1 k = some sk ∧
        sk.isReading = true ∧ sk.currentSpeechIndex = (k : ℤ) ∧
        sk.spokenLog = exReady.spokenLog ++
          (exReady.contentSegments.take (k + 1)).map
            (mkUtterance exReady.speechRate exReady.speechPitch
              (resolveVoice exReady.speechVoice exReady.availableVoices))) ∧
      ∃ sf, runEnds s1 exReady.contentSegments.length = some sf ∧
        sf.isReading = false ∧
        sf.currentSpeechIndex = (exReady.contentSegments.length : ℤ) ∧
        sf.spokenLog = exReady.spokenLog ++
          exReady.contentSegments.map
            (mkUtterance exReady.speechRate exReady.speechPitch
              (resolveVoice exReady.speechVoice exReady.availableVoices)) :=
  c1_sequential_playback exReady (by decide) rfl (Or.inl rfl)
